import Mathlib

/-!
Verification development for the habit-tracking Telegram bot
(src/bot.py and src/validate_config.py).

The conversation engine and the sheet synchronization/aggregation engine
are embedded shallowly:

* pure helpers (validate_habits, sync_sheet_columns, the row builder of
  append_to_user_sheet, the grouping/sorting core of aggregate_diary) are
  translated to Lean functions over lists and strings;
* the per-user mutable dictionaries (user_states, user_data, FULL_CONFIGs,
  user_sheets, user_setup_complete) become explicit state records, and each
  telebot message handler becomes a function from the old state and the
  inbound text to the new state plus the emitted replies;
* external collaborators (json.loads/json.dumps, the OpenAI extraction
  call, the Google Sheets transport) are parameters of the step functions:
  an Ext record carries their outcomes for the message being processed;
* Python exceptions escaping a handler are modelled with an err field in
  the handler result: telebot catches and logs them, so the dictionaries
  keep the values they had before the handler ran.
-/

namespace TgHabits

/-- JSON values as produced by json.loads in the handlers. Python ints are
carried as Int; a Python float is carried by its repr text (the claims
never depend on float arithmetic, only on type tests and stringification);
object fields are listed in insertion order and have distinct keys, as in
a Python dict obtained from json.loads. -/
inductive JVal where
  | jnull : JVal
  | jbool : Bool → JVal
  | jint : Int → JVal
  | jfloat : String → JVal
  | jstr : String → JVal
  | jarr : List JVal → JVal
  | jobj : List (String × JVal) → JVal
deriving BEq, Repr

/-- Python truthiness of a JSON value, as used by expressions such as
"if not habit_type" in validate_config.py. A float is falsy exactly when
its repr is 0.0 or -0.0. -/
def JVal.truthy : JVal → Bool
  | .jnull => false
  | .jbool b => b
  | .jint n => n != 0
  | .jfloat r => !(r = "0.0" || r = "-0.0")
  | .jstr s => s ≠ ""
  | .jarr l => !l.isEmpty
  | .jobj l => !l.isEmpty

/-- isinstance(v, str) for a JSON value. -/
def JVal.isStr : JVal → Bool
  | .jstr _ => true
  | _ => false

/-- isinstance(v, dict) for a JSON value. -/
def JVal.isObj : JVal → Bool
  | .jobj _ => true
  | _ => false

/-- isinstance(v, list) for a JSON value. -/
def JVal.isArr : JVal → Bool
  | .jarr _ => true
  | _ => false

/-- isinstance(v, (int, float)): in Python a bool is a subclass of int, so
booleans pass this test as well. -/
def JVal.isNumPy : JVal → Bool
  | .jint _ => true
  | .jfloat _ => true
  | .jbool _ => true
  | _ => false

/-- isinstance(v, int): booleans pass, floats do not. -/
def JVal.isIntPy : JVal → Bool
  | .jint _ => true
  | .jbool _ => true
  | _ => false

/-- Dictionary lookup d.get(k) on a JSON object; none when the value is not
an object or the key is absent. -/
def JVal.objGet : JVal → String → Option JVal
  | .jobj l, k => l.lookup k
  | _, _ => none

/-- str.lower() on the ASCII range (every name and keyword the handlers
lowercase is ASCII). -/
def pyLower (s : String) : String := String.mk (s.data.map Char.toLower)

/-- str.split(sep) for a one-character separator, as the strptime model
needs: empty input gives one empty piece, adjacent separators give empty
pieces. -/
def splitCharAux (sep : Char) : List Char → List Char → List (List Char)
  | [], acc => [acc.reverse]
  | c :: cs, acc =>
    if c = sep then acc.reverse :: splitCharAux sep cs []
    else splitCharAux sep cs (c :: acc)

/-- String form of splitCharAux. -/
def splitChar (sep : Char) (s : String) : List String :=
  (splitCharAux sep s.data []).map String.mk

/-- str.strip() with no argument: whitespace removed from both ends. -/
def pyStrip (s : String) : String :=
  String.mk (((s.data.dropWhile Char.isWhitespace).reverse.dropWhile
    Char.isWhitespace).reverse)

/-- int(s) on a nonempty all-digit string, none otherwise (the same
strings String.toNat? accepts). -/
def strToNat? (s : String) : Option Nat :=
  if s.data ≠ [] ∧ s.data.all Char.isDigit then
    some (s.data.foldl (fun a c => a * 10 + (c.toNat - 48)) 0)
  else none

/-- Exceptions that can escape the embedded handlers. -/
inductive PyErr where
  | typeError : PyErr
  | attributeError : PyErr
deriving DecidableEq, Repr

/-- VALID_TYPES of validate_config.py (line 35). -/
def VALID_TYPES : List String :=
  ["object", "array", "string", "number", "integer", "boolean", "null"]

/-- ALLOWED_FIELDS of validate_config.py (lines 38-46), with the dict
read through .get(t, []) so unknown types give the empty list. -/
def ALLOWED_FIELDS (t : String) : List String :=
  if t = "object" then ["properties", "required", "description"]
  else if t = "array" then ["items", "minItems", "maxItems", "description"]
  else if t = "string" then ["minLength", "maxLength", "pattern", "enum", "description"]
  else if t = "number" then ["minimum", "maximum", "enum", "description"]
  else if t = "integer" then ["minimum", "maximum", "enum", "description"]
  else if t = "boolean" then ["enum", "description"]
  else if t = "null" then ["description"]
  else []

/-- Membership test "t in VALID_TYPES" for a JSON value t: only equal
string values compare equal to the entries of the list (Python == between
a non-string and a string is False there). -/
def typeNameValid : JVal → Bool
  | .jstr s => VALID_TYPES.contains s
  | _ => false

/-- Per-field check of validate_config.validate_habits (lines 87-115),
applied to a key that is neither type nor description and is already known
to be allowed for the habit's type(s). -/
def habitFieldCheck (k : String) (v : JVal) : Bool :=
  if k = "minimum" || k = "maximum" then v.isNumPy
  else if k = "enum" then v.isArr
  else if k = "pattern" then v.isStr
  else if k = "properties" then v.isObj
  else if k = "required" then
    (match v with
     | .jarr l => l.all JVal.isStr
     | _ => false)
  else if k = "items" then v.isObj
  else if k = "minItems" || k = "maxItems" || k = "minLength" || k = "maxLength" then v.isIntPy
  else true

/-- validate_config.validate_habits (lines 49-118) on a single habit
entry. A non-dict habit value raises AttributeError at habit_info.get.
Returns the bool the Python function would return for this habit alone. -/
def validateHabit (info : JVal) : Except PyErr Bool :=
  match info with
  | .jobj fields =>
    let t := (fields.lookup "type").getD .jnull
    if !t.truthy then .ok false
    else
      let typeok :=
        match t with
        | .jarr l => l.all typeNameValid
        | _ => typeNameValid t
      if !typeok then .ok false
      else if !(match fields.lookup "description" with
                | some (.jstr _) => true
                | _ => false) then .ok false
      else
        let typesList : List String :=
          match t with
          | .jarr l => l.filterMap (fun x => match x with | .jstr s => some s | _ => none)
          | .jstr s => [s]
          | _ => []
        let allowed := (typesList.map ALLOWED_FIELDS).flatten
        .ok (fields.all fun kv =>
          kv.1 = "type" || kv.1 = "description" ||
          (allowed.contains kv.1 && habitFieldCheck kv.1 kv.2))
  | _ => .error .attributeError

/-- validate_config.validate_habits (lines 49-118): iterates the habits
dict in order, returning False at the first failing habit; iterating a
non-dict raises, and a non-dict habit value raises AttributeError. -/
def validate_habits (habits : JVal) : Except PyErr Bool :=
  match habits with
  | .jobj fields => validateHabitsList fields
  | _ => .error .attributeError
where
  validateHabitsList : List (String × JVal) → Except PyErr Bool
    | [] => .ok true
    | (_, info) :: rest =>
      match validateHabit info with
      | .error e => .error e
      | .ok false => .ok false
      | .ok true => validateHabitsList rest

/-- Regex check for reminder_time in config_schema of validate_config.py
(line 28): five characters HH:MM with hour 00-23 and minute 00-59, hour
written with two digits whose first is 0, 1 or 2. -/
def reminderTimeOk (s : String) : Bool :=
  match s.toList with
  | [a, b, c, d, e] =>
    (((a = '0' || a = '1') && b.isDigit) ||
     (a = '2' && (b = '0' || b = '1' || b = '2' || b = '3'))) &&
    c = ':' && ('0' ≤ d && d ≤ '5') && e.isDigit
  | _ => false

/-- Check of one instance property against config_schema of
validate_config.py (lines 22-32); keys outside the schema are allowed. -/
def configPropOk (k : String) (v : JVal) : Bool :=
  if k = "telegram_token" || k = "openai_api_key" || k = "data_directory" then v.isStr
  else if k = "habits" then v.isObj
  else if k = "reminder_time" then
    (match v with
     | .jstr s => reminderTimeOk s
     | _ => false)
  else true

/-- jsonschema.validate of the instance against config_schema of
validate_config.py: the instance must be an object, must hold the five
required keys, and every present property must match its subschema. -/
def config_schema_check (v : JVal) : Bool :=
  match v with
  | .jobj fields =>
    let keys := fields.map Prod.fst
    keys.contains "telegram_token" && keys.contains "openai_api_key" &&
    keys.contains "habits" && keys.contains "reminder_time" &&
    keys.contains "data_directory" &&
    fields.all fun kv => configPropOk kv.1 kv.2
  | _ => false

/-- Single-quote character (used by the Python repr of strings). -/
def sq : Char := Char.ofNat 39

/-- One character of a Python string repr: backslashes and the chosen
quote are escaped. The model covers printable characters; control
character escapes of repr are outside the scope of the claims. -/
def pyEscapeChar (quote : Char) (c : Char) : String :=
  if c = '\\' then "\\\\"
  else if c = quote then "\\" ++ String.singleton c
  else String.singleton c

/-- Python repr of a string: single-quoted, or double-quoted when the
text holds a single quote but no double quote. -/
def pyReprStr (s : String) : String :=
  let quote := if s.contains sq && !(s.contains '"') then '"' else sq
  String.singleton quote ++ String.join (s.toList.map (pyEscapeChar quote)) ++
    String.singleton quote

/-- Python repr of a JSON value, used by str() on lists and dicts. A float
is rendered by its carried repr text. -/
def pyRepr : JVal → String
  | .jnull => "None"
  | .jbool true => "True"
  | .jbool false => "False"
  | .jint n => toString n
  | .jfloat r => r
  | .jstr s => pyReprStr s
  | .jarr l => "[" ++ String.intercalate ", " (l.attach.map fun v => pyRepr v.1) ++ "]"
  | .jobj l => "\x7b" ++
      String.intercalate ", "
        (l.attach.map fun kv => pyReprStr kv.1.1 ++ ": " ++ pyRepr kv.1.2) ++ "\x7d"
decreasing_by
  · have := List.sizeOf_lt_of_mem v.2
    simp at this ⊢
    omega
  · obtain ⟨⟨k, v⟩, hmem⟩ := kv
    have := List.sizeOf_lt_of_mem hmem
    simp at this ⊢
    omega

/-- str(value) in Python for a parsed JSON value: a string is itself,
anything else is rendered by repr (for containers, repr of the elements). -/
def pyStr (v : JVal) : String :=
  match v with
  | .jstr s => s
  | _ => pyRepr v

/-- Number of days of a month, with the Gregorian leap rule, as enforced
by the datetime constructor reached through datetime.strptime. -/
def daysInMonth (y m : Nat) : Nat :=
  if m = 2 then
    if y % 4 = 0 && (y % 100 ≠ 0 || y % 400 = 0) then 29 else 28
  else if m = 4 || m = 6 || m = 9 || m = 11 then 30
  else 31

/-- Parse of a decimal field of strptime: between lo and hi digits wide,
value within bounds. String.toNat? accepts exactly nonempty all-digit
strings. -/
def numField (s : String) (wLo wHi lo hi : Nat) : Option Nat :=
  if s.length < wLo || wHi < s.length then none
  else match strToNat? s with
    | some n => if lo ≤ n && n ≤ hi then some n else none
    | none => none

/-- datetime.strptime(text, "%Y-%m-%d") as used by handle_custom_date
(bot.py:395): four-digit year (at least 1, as the datetime constructor
requires), month 1-12 of one or two digits, day valid for the month. The
space-padded day form accepted by strptime is not modelled; no claim
depends on it. -/
def parseDate (s : String) : Option (Nat × Nat × Nat) :=
  match splitChar (Char.ofNat 45) s with
  | [ys, ms, ds] =>
    match numField ys 4 4 1 9999 with
    | none => none
    | some y =>
      match numField ms 1 2 1 12 with
      | none => none
      | some m =>
        match numField ds 1 2 1 (daysInMonth y m) with
        | none => none
        | some d => some (y, m, d)
  | _ => none

/-- Zero-padded rendering of a number to two digits, as strftime does. -/
def pad2 (n : Nat) : String :=
  if n < 10 then "0" ++ toString n else toString n

/-- Zero-padded rendering of a year to four digits. -/
def pad4 (n : Nat) : String :=
  if n < 10 then "000" ++ toString n
  else if n < 100 then "00" ++ toString n
  else if n < 1000 then "0" ++ toString n
  else toString n

/-- date.strftime("%Y-%m-%d") applied to a parsed date, as
handle_custom_date stores it (bot.py:396). -/
def fmtDate (d : Nat × Nat × Nat) : String :=
  pad4 d.1 ++ "-" ++ pad2 d.2.1 ++ "-" ++ pad2 d.2.2

/-- Chronologically monotone key of a datetime: since the parsed fields
satisfy m ≤ 12 < 13, d ≤ 31 < 32, h ≤ 23 < 24 and minute, second ≤ 59 <
60, comparison of keys coincides with comparison of datetime objects. -/
def dtKey (y m d h mi s : Nat) : Nat :=
  ((((y * 13 + m) * 32 + d) * 24 + h) * 60 + mi) * 60 + s

/-- datetime.strptime(text, "%Y-%m-%d %H:%M:%S") as used by
aggregate_diary (bot.py:790), returning the order key of the parsed
datetime: date part as in parseDate, hour 0-23, minute and second 0-59
(strptime's regex lets 60 and 61 through for seconds but the datetime
constructor then raises, which the caller treats as a parse failure). -/
def parseDT (s : String) : Option Nat :=
  match splitChar (Char.ofNat 32) s with
  | [ds, ts] =>
    match parseDate ds, splitChar (Char.ofNat 58) ts with
    | some (y, m, d), [hs, mins, ss] =>
      match numField hs 1 2 0 23 with
      | none => none
      | some h =>
        match numField mins 1 2 0 59 with
        | none => none
        | some mi =>
          match numField ss 1 2 0 59 with
          | none => none
          | some sec => some (dtKey y m d h mi sec)
    | _, _ => none
  | _ => none

/-- Python list.insert(i, x): the index is clamped to the length. -/
def pyInsert (i : Nat) (x : α) (l : List α) : List α :=
  l.take i ++ x :: l.drop i

/-- First if-block of sync_sheet_columns (bot.py:737-740): when slot 0 is
not a case variant of datetime, drop every case variant and insert the
canonical name at the front. -/
def fixDatetime (h : List String) : List String :=
  if h.length < 1 || pyLower (h.getD 0 "") ≠ "datetime" then
    pyInsert 0 "datetime" (h.filter fun c => pyLower c ≠ "datetime")
  else h

/-- Second if-block of sync_sheet_columns (bot.py:741-743), for the date
column at slot 1. -/
def fixDate (h : List String) : List String :=
  if h.length < 2 || pyLower (h.getD 1 "") ≠ "date" then
    pyInsert 1 "date" (h.filter fun c => pyLower c ≠ "date")
  else h

/-- Third if-block of sync_sheet_columns (bot.py:744-746), for the
raw_input column at slot 2. -/
def fixRawInput (h : List String) : List String :=
  if h.length < 3 || pyLower (h.getD 2 "") ≠ "raw_input" then
    pyInsert 2 "raw_input" (h.filter fun c => pyLower c ≠ "raw_input")
  else h

/-- First half of sync_sheet_columns (bot.py:736-746): the three if-blocks
applied in sequence to the mutable current_header. -/
def fixCols (h : List String) : List String :=
  fixRawInput (fixDate (fixDatetime h))

/-- Second half of sync_sheet_columns (bot.py:747-751): append each
configured habit name not already present, by exact string match, in
configuration order. -/
def addHabits (h : List String) (habits : List String) : List String :=
  habits.foldl (fun acc hb => if hb ∈ acc then acc else acc ++ [hb]) h

/-- Header reconciliation of sync_sheet_columns (bot.py:723-753) as a
function of the current header row and the habit names of the updated
configuration (the surrounding sheet transport is external). -/
def sync_sheet_columns (h : List String) (habits : List String) : List String :=
  addHabits (fixCols h) habits

/-- Row construction of append_to_user_sheet (bot.py:197-213): the three
fixed columns are matched on the lowercased header name; any other column
is looked up verbatim among the record's keys, stringifying non-string
values, and yields the empty cell when absent. -/
def buildRow (header : List String) (datetimeVal dateVal rawInput : String)
    (jsonData : List (String × JVal)) : List String :=
  header.map fun col =>
    if pyLower col = "datetime" then datetimeVal
    else if pyLower col = "date" then dateVal
    else if pyLower col = "raw_input" then rawInput
    else
      match jsonData.lookup col with
      | some v => pyStr v
      | none => ""

/-- One value of the aggregated dict of aggregate_diary: the day key, the
kept raw row, and the order key of its parsed datetime. -/
structure AggEntry where
  day : String
  row : List String
  key : Nat
deriving DecidableEq, Repr

/-- Membership test "day in aggregated" on the insertion-ordered dict. -/
def lookupDay (A : List AggEntry) (d : String) : Option AggEntry :=
  A.find? fun e => e.day = d

/-- Assignment aggregated[day] = value for a day already present: the
entry is replaced in place, keeping its position. -/
def setDay (A : List AggEntry) (d : String) (row : List String) (k : Nat) :
    List AggEntry :=
  A.map fun e => if e.day = d then ⟨d, row, k⟩ else e

/-- Loop body of aggregate_diary (bot.py:783-795): skip incomplete rows
and rows whose datetime does not parse; keep a row for its day when the
day is new or the datetime is strictly later than the stored one. -/
def aggStep (iDt iDate : Nat) (A : List AggEntry) (row : List String) :
    List AggEntry :=
  if row.length ≤ max iDt iDate then A
  else
    match parseDT (row.getD iDt "") with
    | none => A
    | some k =>
      let d := row.getD iDate ""
      match lookupDay A d with
      | none => A ++ [⟨d, row, k⟩]
      | some e => if e.key < k then setDay A d row k else A

/-- Sort order of sorted(aggregated.values(), key=lambda x: x["dt"]). -/
def entLE (a b : AggEntry) : Prop := a.key ≤ b.key

instance : DecidableRel entLE := fun a b => Nat.decLe a.key b.key

instance : IsTotal AggEntry entLE := ⟨fun a b => Nat.le_total a.key b.key⟩

instance : IsTrans AggEntry entLE := ⟨fun _ _ _ => Nat.le_trans⟩

/-- Data-row core of aggregate_diary (bot.py:757-808) as a function of the
header row and the data rows below it. Returns none on the early exits of
the source: no data rows (len(values) < 2), or a header without an exact
datetime or date column (ValueError from list.index). Otherwise returns
the aggregated data rows, one per surviving day, sorted ascending by the
parsed datetime; the source writes them below a copy of the header. -/
def aggregate_core (header : List String) (records : List (List String)) :
    Option (List (List String)) :=
  if records.isEmpty then none
  else
    match header.findIdx? (· = "datetime"), header.findIdx? (· = "date") with
    | some iDt, some iDate =>
      let A := records.foldl (aggStep iDt iDate) []
      some ((A.insertionSort entLE).map AggEntry.row)
    | _, _ => none

/-- Day cell of a raw row, given the date column index. -/
def dayOf (iDate : Nat) (r : List String) : String := r.getD iDate ""

/-- Datetime order key of a raw row, given the datetime column index;
zero for rows whose datetime does not parse. -/
def dtKeyOf (iDt : Nat) (r : List String) : Nat :=
  (parseDT (r.getD iDt "")).getD 0

/-- A raw row that aggregate_diary does not skip: long enough to have
both cells, with a datetime that parses in the fixed layout. This is the
well-formedness every RawRecord of the data model has. -/
def ValidR (iDt iDate : Nat) (r : List String) : Prop :=
  max iDt iDate < r.length ∧ (parseDT (r.getD iDt "")).isSome

instance (iDt iDate : Nat) (r : List String) : Decidable (ValidR iDt iDate r) :=
  inferInstanceAs (Decidable (_ ∧ _))

/-- Conversation states of bot.py (lines 89-101); the dictionary value
None becomes the surrounding Option. -/
inductive ConvState where
  | selectingDate
  | awaitingCustomDate
  | awaitingInput
  | confirming
  | editing
  | manualInput
  | updatingConfig
  | dreamInput
  | dreamConfirming
  | dreamEditing
  | thoughtsInput
  | thoughtsConfirming
  | thoughtsEditing
deriving DecidableEq, Repr

/-- Session draft user_data[user_id]: the keys the handlers ever write.
The empty dict has every field none. -/
structure Draft where
  date : Option String := none
  userInput : Option String := none
  jsonOutput : Option String := none
  dreamText : Option String := none
  thoughtText : Option String := none
deriving DecidableEq, Repr

/-- The cleared draft, user_data[user_id] = an empty dict. -/
def Draft.empty : Draft := {}

/-- Per-user session: user_states[user_id] and user_data[user_id]. -/
structure Session where
  state : Option ConvState
  draft : Draft
deriving DecidableEq, Repr

/-- Per-user persistent flags and settings: membership in user_sheets and
user_setup_complete, FULL_CONFIGs[user_id] and user_timezones[user_id]. -/
structure Globals where
  hasSheet : Bool
  setupComplete : Bool
  config : JVal
  timezone : String
deriving BEq, Repr

/-- Outbound replies, one tag per bot.send_message / bot.reply_to site a
modelled handler can reach. -/
inductive Out where
  | cancelled
  | invalidDateOption
  | promptCustomDate
  | promptInput
  | invalidDateFormat
  | extractionFailed
  | showExtracted
  | appendedToSheet
  | appendFailedWarning
  | askCorrections
  | replyYesNo
  | showUpdated
  | invalidJsonManual
  | setupPrompt
  | askDate
  | manualPrompt
  | linkSheetPrompt
  | showExampleConfig
  | showCurrentConfig
  | configCancelled
  | invalidJsonConfig
  | schemaValidationFailed
  | dreamPrompt
  | showDream
  | dreamSaved
  | dreamSaveFailed
  | linkSheetFirstDream
  | askDreamCorrection
  | showDreamUpdated
  | thoughtsPrompt
  | showThoughts
  | thoughtsSaved
  | thoughtsSaveFailed
  | linkSheetFirstThoughts
  | askThoughtsCorrection
  | showThoughtsUpdated
deriving DecidableEq, Repr

/-- Outcomes of the external collaborators for the message being handled:
json.loads and json.dumps, the process clock strftime values, the OpenAI
extraction (the API call composed with the json parse of its function-call
arguments; none for either failure), the header of the linked raw sheet,
and whether the sheet transport raises for the current operation. -/
structure Ext where
  loads : String → Option JVal
  dumps : JVal → String
  today : String
  yesterday : String
  nowDate : String
  nowDT : String
  extract : String → Option JVal
  extractEdit : String → Option JVal
  sheetHeader : List String
  sheetFail : Bool

/-- Result of running one handler: the session and globals afterwards, the
replies sent, the row appended to a sheet when one was, the value written
to the draft's json_output by manual_input before the session reset
(bot.py:656, observable only transiently), and an exception escaping the
handler (telebot catches and logs it, leaving the dictionaries as the
handler left them). -/
structure StepRes where
  sess : Session
  glob : Globals
  outs : List Out
  appendedRow : Option (List String) := none
  stored : Option String := none
  err : Option PyErr := none

/-- cancel_process (bot.py:338-344): reset state and clear the draft. -/
def cancel_process (g : Globals) : StepRes :=
  { sess := ⟨none, Draft.empty⟩, glob := g, outs := [.cancelled] }

/-- handle_date_selection (bot.py:364-385), for a text message in state
SELECTING_DATE. -/
def handle_date_selection (ext : Ext) (g : Globals) (s : Session)
    (text : String) : StepRes :=
  let t := pyLower text
  if t = "cancel" then cancel_process g
  else if t = "today" then
    { sess := ⟨some .awaitingInput, { s.draft with date := some ext.today }⟩,
      glob := g, outs := [.promptInput] }
  else if t = "yesterday" then
    { sess := ⟨some .awaitingInput, { s.draft with date := some ext.yesterday }⟩,
      glob := g, outs := [.promptInput] }
  else if t = "custom date" then
    { sess := ⟨some .awaitingCustomDate, s.draft⟩, glob := g,
      outs := [.promptCustomDate] }
  else { sess := s, glob := g, outs := [.invalidDateOption] }

/-- handle_custom_date (bot.py:388-401), for a text message in state
AWAITING_CUSTOM_DATE: a strict YYYY-MM-DD parse of the stripped text
advances; failure re-prompts without a state change. -/
def handle_custom_date (_ext : Ext) (g : Globals) (s : Session)
    (text : String) : StepRes :=
  if pyLower text = "cancel" then cancel_process g
  else
    match parseDate (pyStrip text) with
    | some d =>
      { sess := ⟨some .awaitingInput, { s.draft with date := some (fmtDate d) }⟩,
        glob := g, outs := [.promptInput] }
    | none => { sess := s, glob := g, outs := [.invalidDateFormat] }

/-- handle_input (bot.py:423-501), for a text message in state
AWAITING_INPUT: the raw text is stored first, then the extraction runs;
its failure re-prompts in place (the stored raw input remains), success
stores the dumped record and moves to CONFIRMING. -/
def handle_input (ext : Ext) (g : Globals) (s : Session)
    (text : String) : StepRes :=
  if pyLower text = "cancel" then cancel_process g
  else
    let d1 := { s.draft with userInput := some text }
    match ext.extract text with
    | none => { sess := ⟨s.state, d1⟩, glob := g, outs := [.extractionFailed] }
    | some j =>
      { sess := ⟨some .confirming, { d1 with jsonOutput := some (ext.dumps j) }⟩,
        glob := g, outs := [.showExtracted] }

/-- confirm (bot.py:504-556), for a text message in state CONFIRMING.
On yes, when a sheet is linked the stored record is parsed back (any
failure yields an empty record), the row aligned to the sheet header is
appended, and the aggregate rebuild runs on success; the session is reset
in every yes branch. aggregate_diary catches all its own exceptions, so
its outcome cannot alter the session. -/
def confirm (ext : Ext) (g : Globals) (s : Session) (text : String) : StepRes :=
  let r := pyLower text
  if r = "cancel" then cancel_process g
  else if r = "yes" then
    let dateVal := s.draft.date.getD ext.nowDate
    if g.hasSheet then
      let jsonData : List (String × JVal) :=
        match s.draft.jsonOutput with
        | none => []
        | some txt =>
          match ext.loads txt with
          | some (.jobj fields) => fields
          | _ => []
      if ext.sheetFail then
        { sess := ⟨none, Draft.empty⟩, glob := g, outs := [.appendFailedWarning] }
      else
        { sess := ⟨none, Draft.empty⟩, glob := g, outs := [.appendedToSheet],
          appendedRow := some (buildRow ext.sheetHeader ext.nowDT dateVal
            (s.draft.userInput.getD "") jsonData) }
    else { sess := ⟨none, Draft.empty⟩, glob := g, outs := [] }
  else if r = "no" then
    { sess := ⟨some .editing, s.draft⟩, glob := g, outs := [.askCorrections] }
  else { sess := s, glob := g, outs := [.replyYesNo] }

/-- edit (bot.py:558-632), for a text message in state EDITING: the
correction text stays local; extraction failure re-prompts in place,
success overwrites the stored record and returns to CONFIRMING. -/
def edit (ext : Ext) (g : Globals) (s : Session) (text : String) : StepRes :=
  if pyLower text = "cancel" then cancel_process g
  else
    match ext.extractEdit text with
    | none => { sess := s, glob := g, outs := [.extractionFailed] }
    | some j =>
      { sess := ⟨some .confirming, { s.draft with jsonOutput := some (ext.dumps j) }⟩,
        glob := g, outs := [.showUpdated] }

/-- manual_input (bot.py:646-669), for a text message in state
MANUAL_INPUT: invalid JSON re-prompts with no state change; valid JSON
writes the dumped record into the draft (bot.py:656, surfaced in the
stored field) and then resets state and draft; no reply is sent on
success (the save message of the source is commented out). -/
def manual_input (ext : Ext) (g : Globals) (s : Session) (text : String) : StepRes :=
  if pyLower text = "cancel" then cancel_process g
  else
    match ext.loads text with
    | none => { sess := s, glob := g, outs := [.invalidJsonManual] }
    | some j =>
      { sess := ⟨none, Draft.empty⟩, glob := g, outs := [],
        stored := some (ext.dumps j) }

/-- handle_updated_config (bot.py:811-875), for a text message in state
UPDATING_CONFIG. Cancel resets the state but, unlike cancel_process, does
not clear the draft. Invalid JSON or a config_schema failure re-prompt
with no state change. When both pass, the source computes
ok, errors = validate_habits(new_cfg.get('habits', {})) at bot.py:845;
validate_config.validate_habits returns a bare bool (lines 49-118), so
the tuple unpacking raises TypeError and the handler dies before any of
the updates of lines 853-875: the configuration, the habit schema, the
sheet header, the persisted settings and the state are all untouched. -/
def handle_updated_config (ext : Ext) (g : Globals) (s : Session)
    (text : String) : StepRes :=
  if pyLower text = "cancel" then
    { sess := ⟨none, s.draft⟩, glob := g, outs := [.configCancelled] }
  else
    match ext.loads text with
    | none => { sess := s, glob := g, outs := [.invalidJsonConfig] }
    | some cfg =>
      if !config_schema_check cfg then
        { sess := s, glob := g, outs := [.schemaValidationFailed] }
      else
        match validate_habits ((cfg.objGet "habits").getD (.jobj [])) with
        | .error e => { sess := s, glob := g, outs := [], err := some e }
        | .ok _ => { sess := s, glob := g, outs := [], err := some .typeError }

/-- handle_dream_input (bot.py:1041-1075), for a text message in state
DREAM_INPUT. -/
def handle_dream_input (_ext : Ext) (g : Globals) (s : Session)
    (text : String) : StepRes :=
  if pyLower text = "cancel" then cancel_process g
  else
    { sess := ⟨some .dreamConfirming, { s.draft with dreamText := some text }⟩,
      glob := g, outs := [.showDream] }

/-- confirm_dream (bot.py:1079-1131), for a text message in state
DREAM_CONFIRMING: on yes the session is reset whatever the sheet outcome;
the appended row duplicates the raw text into the dream column. -/
def confirm_dream (ext : Ext) (g : Globals) (s : Session) (text : String) : StepRes :=
  let r := pyLower text
  if r = "cancel" then cancel_process g
  else if r = "yes" then
    if g.hasSheet then
      if ext.sheetFail then
        { sess := ⟨none, Draft.empty⟩, glob := g, outs := [.dreamSaveFailed] }
      else
        let raw := s.draft.dreamText.getD ""
        { sess := ⟨none, Draft.empty⟩, glob := g, outs := [.dreamSaved],
          appendedRow := some [ext.nowDT, ext.nowDate, raw, raw] }
    else { sess := ⟨none, Draft.empty⟩, glob := g, outs := [.linkSheetFirstDream] }
  else if r = "no" then
    { sess := ⟨some .dreamEditing, s.draft⟩, glob := g, outs := [.askDreamCorrection] }
  else { sess := s, glob := g, outs := [.replyYesNo] }

/-- edit_dream (bot.py:1135-1167), for a text message in state
DREAM_EDITING. -/
def edit_dream (_ext : Ext) (g : Globals) (s : Session) (text : String) : StepRes :=
  if pyLower text = "cancel" then cancel_process g
  else
    { sess := ⟨some .dreamConfirming, { s.draft with dreamText := some text }⟩,
      glob := g, outs := [.showDreamUpdated] }

/-- handle_thoughts_input (bot.py:1185-1210), for a text message in state
THOUGHTS_INPUT. -/
def handle_thoughts_input (_ext : Ext) (g : Globals) (s : Session)
    (text : String) : StepRes :=
  if pyLower text = "cancel" then cancel_process g
  else
    { sess := ⟨some .thoughtsConfirming, { s.draft with thoughtText := some text }⟩,
      glob := g, outs := [.showThoughts] }

/-- confirm_thoughts (bot.py:1214-1260), for a text message in state
THOUGHTS_CONFIRMING. -/
def confirm_thoughts (ext : Ext) (g : Globals) (s : Session)
    (text : String) : StepRes :=
  let r := pyLower text
  if r = "cancel" then cancel_process g
  else if r = "yes" then
    if g.hasSheet then
      if ext.sheetFail then
        { sess := ⟨none, Draft.empty⟩, glob := g, outs := [.thoughtsSaveFailed] }
      else
        let raw := s.draft.thoughtText.getD ""
        { sess := ⟨none, Draft.empty⟩, glob := g, outs := [.thoughtsSaved],
          appendedRow := some [ext.nowDT, ext.nowDate, raw, raw] }
    else { sess := ⟨none, Draft.empty⟩, glob := g, outs := [.linkSheetFirstThoughts] }
  else if r = "no" then
    { sess := ⟨some .thoughtsEditing, s.draft⟩, glob := g,
      outs := [.askThoughtsCorrection] }
  else { sess := s, glob := g, outs := [.replyYesNo] }

/-- edit_thoughts (bot.py:1264-1289), for a text message in state
THOUGHTS_EDITING. -/
def edit_thoughts (_ext : Ext) (g : Globals) (s : Session) (text : String) : StepRes :=
  if pyLower text = "cancel" then cancel_process g
  else
    { sess := ⟨some .thoughtsConfirming, { s.draft with thoughtText := some text }⟩,
      glob := g, outs := [.showThoughtsUpdated] }

/-- Dispatch of a plain (non-command) text message: telebot picks the
registered handler whose state filter matches the sender's state; with no
active state no handler matches and nothing happens. Command messages are
matched by the command handlers below instead. -/
def handleText (ext : Ext) (g : Globals) (s : Session) (text : String) : StepRes :=
  match s.state with
  | none => { sess := s, glob := g, outs := [] }
  | some st =>
    match st with
    | .selectingDate => handle_date_selection ext g s text
    | .awaitingCustomDate => handle_custom_date ext g s text
    | .awaitingInput => handle_input ext g s text
    | .confirming => confirm ext g s text
    | .editing => edit ext g s text
    | .manualInput => manual_input ext g s text
    | .updatingConfig => handle_updated_config ext g s text
    | .dreamInput => handle_dream_input ext g s text
    | .dreamConfirming => confirm_dream ext g s text
    | .dreamEditing => edit_dream ext g s text
    | .thoughtsInput => handle_thoughts_input ext g s text
    | .thoughtsConfirming => confirm_thoughts ext g s text
    | .thoughtsEditing => edit_thoughts ext g s text

/-- habits_command (bot.py:347-361): rejected with the setup prompt until
the user appears in user_setup_complete; otherwise a hard reset into
SELECTING_DATE with a cleared draft. -/
def habits_command (g : Globals) (s : Session) : StepRes :=
  if !g.setupComplete then { sess := s, glob := g, outs := [.setupPrompt] }
  else { sess := ⟨some .selectingDate, Draft.empty⟩, glob := g, outs := [.askDate] }

/-- manual_input_prompt (bot.py:635-643): same setup gate; the draft is
not cleared by this command. -/
def manual_input_prompt (g : Globals) (s : Session) : StepRes :=
  if !g.setupComplete then { sess := s, glob := g, outs := [.setupPrompt] }
  else { sess := ⟨some .manualInput, s.draft⟩, glob := g, outs := [.manualPrompt] }

/-- dream_command (bot.py:1026-1037). -/
def dream_command (g : Globals) (s : Session) : StepRes :=
  if !g.setupComplete then { sess := s, glob := g, outs := [.setupPrompt] }
  else { sess := ⟨some .dreamInput, s.draft⟩, glob := g, outs := [.dreamPrompt] }

/-- thoughts_command (bot.py:1171-1181). -/
def thoughts_command (g : Globals) (s : Session) : StepRes :=
  if !g.setupComplete then { sess := s, glob := g, outs := [.setupPrompt] }
  else { sess := ⟨some .thoughtsInput, s.draft⟩, glob := g, outs := [.thoughtsPrompt] }

/-- update_config_command (bot.py:672-719): gated only on a linked sheet
(membership in user_sheets), not on completed setup; when a sheet is
linked it always enters UPDATING_CONFIG, showing the example or the
current configuration. -/
def update_config_command (g : Globals) (s : Session) : StepRes :=
  if !g.hasSheet then { sess := s, glob := g, outs := [.linkSheetPrompt] }
  else
    { sess := ⟨some .updatingConfig, s.draft⟩, glob := g,
      outs := [if !g.config.truthy then .showExampleConfig else .showCurrentConfig] }

/-- Inert external environment for concrete evaluations: parsing and
extraction fail, no clock values, empty sheet. -/
def extNone : Ext :=
  { loads := fun _ => none, dumps := fun _ => "", today := "", yesterday := "",
    nowDate := "", nowDT := "", extract := fun _ => none,
    extractEdit := fun _ => none, sheetHeader := [], sheetFail := false }

/-- A user with no linked sheet and no completed setup. -/
def gFresh : Globals := ⟨false, false, .jobj [], "UTC"⟩

/-- A user who linked a sheet but never saved a valid configuration. -/
def gSheetOnly : Globals := ⟨true, false, .jobj [], "UTC"⟩

/-- A configuration document that parses, passes config_schema, and whose
habits pass validate_habits: the failing input of the config-update
handler. -/
def cfgVal : JVal :=
  .jobj [("telegram_token", .jstr "t"), ("openai_api_key", .jstr "k"),
    ("habits", .jobj [("sleep", .jobj [("type", .jstr "number"),
      ("description", .jstr "hours of sleep")])]),
    ("reminder_time", .jstr "09:00"), ("data_directory", .jstr "data")]

/-- External environment whose json.loads yields cfgVal. -/
def extCfg : Ext := { extNone with loads := fun _ => some cfgVal }

theorem addHabits_nil (acc : List String) : addHabits acc [] = acc := rfl

theorem addHabits_cons (acc : List String) (hb : String) (rest : List String) :
    addHabits acc (hb :: rest) =
      addHabits (if hb ∈ acc then acc else acc ++ [hb]) rest := rfl

/-- The habit loop only appends: the result is the accumulator followed by
some of the habit names, each of them previously absent. -/
theorem addHabits_exists_extra (habits : List String) :
    ∀ acc : List String, ∃ extra, addHabits acc habits = acc ++ extra ∧
      ∀ x ∈ extra, x ∈ habits ∧ x ∉ acc := by
  induction habits with
  | nil => exact fun acc => ⟨[], by simp [addHabits_nil]⟩
  | cons hb rest ih =>
    intro acc
    rw [addHabits_cons]
    by_cases hmem : hb ∈ acc
    · obtain ⟨ex, hex, hsub⟩ := ih acc
      exact ⟨ex, by simpa [hmem] using hex,
        fun x hx => ⟨.tail _ (hsub x hx).1, (hsub x hx).2⟩⟩
    · obtain ⟨ex, hex, hsub⟩ := ih (acc ++ [hb])
      refine ⟨hb :: ex, ?_, ?_⟩
      · simp only [hmem, if_false] at hex ⊢
        rw [hex]
        simp
      · intro x hx
        rcases List.mem_cons.1 hx with rfl | hx
        · exact ⟨.head _, hmem⟩
        · have := hsub x hx
          refine ⟨.tail _ this.1, fun hc => this.2 (List.mem_append_left _ hc)⟩

/-- Every configured habit name is in the reconciled accumulator. -/
theorem mem_addHabits_of_mem (habits : List String) :
    ∀ acc x, x ∈ habits → x ∈ addHabits acc habits := by
  induction habits with
  | nil => intro _ _ h; cases h
  | cons hb rest ih =>
    intro acc x hx
    rw [addHabits_cons]
    obtain ⟨ex, hex, -⟩ := addHabits_exists_extra rest (if hb ∈ acc then acc else acc ++ [hb])
    rcases List.mem_cons.1 hx with rfl | hx
    · rw [hex]
      refine List.mem_append_left _ ?_
      by_cases hmem : x ∈ acc <;> simp [hmem]
    · exact ih _ x hx

/-- When every habit name is already present the habit loop is the
identity. -/
theorem addHabits_of_all_mem (habits : List String) :
    ∀ acc, (∀ x ∈ habits, x ∈ acc) → addHabits acc habits = acc := by
  induction habits with
  | nil => intro acc _; rfl
  | cons hb rest ih =>
    intro acc hall
    rw [addHabits_cons, if_pos (hall hb (.head _))]
    exact ih acc fun x hx => hall x (.tail _ hx)

theorem pyInsert_zero (x : α) (l : List α) : pyInsert 0 x l = x :: l := rfl

theorem pyInsert_one (x : α) (a : α) (l : List α) :
    pyInsert 1 x (a :: l) = a :: x :: l := rfl

theorem pyInsert_two (x : α) (a b : α) (l : List α) :
    pyInsert 2 x (a :: b :: l) = a :: b :: x :: l := rfl

/-- After the first if-block, slot 0 is a case variant of datetime. -/
theorem fixDatetime_shape (h : List String) :
    ∃ a t, fixDatetime h = a :: t ∧ pyLower a = "datetime" := by
  rw [fixDatetime]
  split
  · exact ⟨"datetime", _, pyInsert_zero _ _, by decide⟩
  · rename_i hcond
    simp only [Bool.or_eq_true, decide_eq_true_eq, not_or, Nat.not_lt, ne_eq,
      not_not] at hcond
    obtain ⟨a, t, rfl⟩ : ∃ a t, h = a :: t := by
      cases h with
      | nil => simp at hcond
      | cons a t => exact ⟨a, t, rfl⟩
    exact ⟨a, t, rfl, by simpa using hcond.2⟩

/-- After the second if-block, a header whose head is not a case variant
of date keeps its head and gets one at slot 1. -/
theorem fixDate_shape (a : String) (t : List String) (hane : pyLower a ≠ "date") :
    ∃ b t2, fixDate (a :: t) = a :: b :: t2 ∧ pyLower b = "date" := by
  rw [fixDate]
  split
  · refine ⟨"date", t.filter (fun c => pyLower c ≠ "date"), ?_, by decide⟩
    rw [List.filter_cons_of_pos (by simpa using hane), pyInsert_one]
  · rename_i hcond
    simp only [Bool.or_eq_true, decide_eq_true_eq, not_or, Nat.not_lt, ne_eq,
      not_not] at hcond
    obtain ⟨b, t2, rfl⟩ : ∃ b t2, t = b :: t2 := by
      cases t with
      | nil => simp at hcond
      | cons b t2 => exact ⟨b, t2, rfl⟩
    exact ⟨b, t2, rfl, by simpa using hcond.2⟩

/-- After the third if-block, a header whose first two columns are not
case variants of raw_input keeps them and gets one at slot 2. -/
theorem fixRawInput_shape (a b : String) (t : List String)
    (hane : pyLower a ≠ "raw_input") (hbne : pyLower b ≠ "raw_input") :
    ∃ c t3, fixRawInput (a :: b :: t) = a :: b :: c :: t3 ∧
      pyLower c = "raw_input" := by
  rw [fixRawInput]
  split
  · refine ⟨"raw_input", t.filter (fun c => pyLower c ≠ "raw_input"), ?_, by decide⟩
    rw [List.filter_cons_of_pos (by simpa using hane),
      List.filter_cons_of_pos (by simpa using hbne), pyInsert_two]
  · rename_i hcond
    simp only [Bool.or_eq_true, decide_eq_true_eq, not_or, Nat.not_lt, ne_eq,
      not_not] at hcond
    obtain ⟨c, t3, rfl⟩ : ∃ c t3, t = c :: t3 := by
      cases t with
      | nil => simp at hcond
      | cons c t3 => exact ⟨c, t3, rfl⟩
    exact ⟨c, t3, rfl, by simpa using hcond.2⟩

/-- After fixCols the header starts with case variants of the three fixed
names, in order. -/
theorem fixCols_shape (h : List String) :
    ∃ a b c rest, fixCols h = a :: b :: c :: rest ∧
      pyLower a = "datetime" ∧ pyLower b = "date" ∧ pyLower c = "raw_input" := by
  obtain ⟨a, t1, h1, ha⟩ := fixDatetime_shape h
  obtain ⟨b, t2, h2, hb⟩ := fixDate_shape a t1 (by rw [ha]; decide)
  obtain ⟨c, t3, h3, hc⟩ := fixRawInput_shape a b t2 (by rw [ha]; decide)
    (by rw [hb]; decide)
  exact ⟨a, b, c, t3, by rw [fixCols, h1, h2, h3], ha, hb, hc⟩

/-- A header already starting with case variants of the three fixed names
is a fixed point of fixCols. -/
theorem fixCols_of_shape (a b c : String) (rest : List String)
    (ha : pyLower a = "datetime") (hb : pyLower b = "date")
    (hc : pyLower c = "raw_input") :
    fixCols (a :: b :: c :: rest) = a :: b :: c :: rest := by
  have h1 : fixDatetime (a :: b :: c :: rest) = a :: b :: c :: rest := by
    rw [fixDatetime, if_neg]
    simp [ha]
  have h2 : fixDate (a :: b :: c :: rest) = a :: b :: c :: rest := by
    rw [fixDate, if_neg]
    simp [hb]
  have h3 : fixRawInput (a :: b :: c :: rest) = a :: b :: c :: rest := by
    rw [fixRawInput, if_neg]
    simp [hc]
  rw [fixCols, h1, h2, h3]

/-- C5: header reconciliation is idempotent: reconciling a reconciled
header against the same habit-name set returns it unchanged. -/
theorem sync_sheet_columns_idempotent (h : List String) (habits : List String) :
    sync_sheet_columns (sync_sheet_columns h habits) habits =
      sync_sheet_columns h habits := by
  obtain ⟨a, b, c, rest, hfix, ha, hb, hc⟩ := fixCols_shape h
  obtain ⟨extra, hex, -⟩ := addHabits_exists_extra habits (fixCols h)
  have hshape : sync_sheet_columns h habits = a :: b :: c :: (rest ++ extra) := by
    rw [sync_sheet_columns, hex, hfix]; rfl
  rw [sync_sheet_columns, hshape, fixCols_of_shape a b c (rest ++ extra) ha hb hc]
  rw [← hshape]
  exact addHabits_of_all_mem habits _ fun x hx => mem_addHabits_of_mem habits _ x hx

/-- C6 (amended): the reconciled header starts with three columns whose
lowercase forms are datetime, date, raw_input in that order; every habit
name of the configuration occurs in it; and it is the fixCols-normalised
existing header followed by exactly the habit names that were absent from
it. Duplicates beyond the checked slots are not removed (see the
counterexample). -/
theorem sync_sheet_columns_shape (h : List String) (habits : List String) :
    (∃ a b c rest, sync_sheet_columns h habits = a :: b :: c :: rest ∧
      pyLower a = "datetime" ∧ pyLower b = "date" ∧ pyLower c = "raw_input") ∧
    (∀ x ∈ habits, x ∈ sync_sheet_columns h habits) ∧
    (∃ extra, sync_sheet_columns h habits = fixCols h ++ extra ∧
      ∀ x ∈ extra, x ∈ habits ∧ x ∉ fixCols h) := by
  obtain ⟨a, b, c, rest, hfix, ha, hb, hc⟩ := fixCols_shape h
  obtain ⟨extra, hex, hsub⟩ := addHabits_exists_extra habits (fixCols h)
  refine ⟨⟨a, b, c, rest ++ extra, ?_, ha, hb, hc⟩,
    fun x hx => mem_addHabits_of_mem habits _ x hx, ⟨extra, hex, hsub⟩⟩
  rw [sync_sheet_columns, hex, hfix]; rfl

/-- C6 witness: the shape theorem at a concrete header and habit set. -/
theorem sync_sheet_columns_shape_witness :
    ("steps" ∈ ["steps", "mood"] ∧
      "steps" ∈ sync_sheet_columns ["Date", "datetime"] ["steps", "mood"]) ∧
    sync_sheet_columns ["Date", "datetime"] ["steps", "mood"] =
      ["datetime", "Date", "raw_input", "steps", "mood"] := by
  have h := sync_sheet_columns_shape ["Date", "datetime"] ["steps", "mood"]
  exact ⟨⟨by decide, h.2.1 "steps" (by decide)⟩, by decide⟩

/-- C6 counterexample: a header whose date slot is fine but whose tail
holds another date column keeps both, so the reconciled header contains a
duplicate occurrence of a fixed column name. -/
theorem sync_sheet_columns_duplicate_date :
    sync_sheet_columns ["datetime", "date", "date"] [] =
      ["datetime", "date", "raw_input", "date"] ∧
    ¬ (sync_sheet_columns ["datetime", "date", "date"] []).count "date" ≤ 1 := by
  decide

/-- C10: cell-level behaviour of the appended row: the three fixed
columns are recognised on the lowercased header name; any other column is
looked up verbatim (case-sensitively) among the extracted record's keys,
giving the empty cell when absent and the Python string form of the value
when present. -/
theorem buildRow_cells (header : List String) (dtv dv raw : String)
    (jd : List (String × JVal)) (i : Nat) (hi : i < header.length) :
    (buildRow header dtv dv raw jd).length = header.length ∧
    ((pyLower (header.getD i "") = "datetime" →
      (buildRow header dtv dv raw jd).getD i "" = dtv) ∧
    (pyLower (header.getD i "") = "date" →
      (buildRow header dtv dv raw jd).getD i "" = dv) ∧
    (pyLower (header.getD i "") = "raw_input" →
      (buildRow header dtv dv raw jd).getD i "" = raw) ∧
    (pyLower (header.getD i "") ≠ "datetime" →
      pyLower (header.getD i "") ≠ "date" →
      pyLower (header.getD i "") ≠ "raw_input" →
      (jd.lookup (header.getD i "") = none →
        (buildRow header dtv dv raw jd).getD i "" = "") ∧
      (∀ v, jd.lookup (header.getD i "") = some v →
        (buildRow header dtv dv raw jd).getD i "" = pyStr v))) := by
  have hlen : (buildRow header dtv dv raw jd).length = header.length := by
    simp [buildRow]
  have hib : i < (buildRow header dtv dv raw jd).length := by rw [hlen]; exact hi
  have hcell : (buildRow header dtv dv raw jd).getD i "" =
      (if pyLower (header.getD i "") = "datetime" then dtv
       else if pyLower (header.getD i "") = "date" then dv
       else if pyLower (header.getD i "") = "raw_input" then raw
       else
         match jd.lookup (header.getD i "") with
         | some v => pyStr v
         | none => "") := by
    rw [List.getD_eq_getElem _ _ hib, List.getD_eq_getElem _ _ hi]
    simp only [buildRow, List.getElem_map]
  refine ⟨hlen, ?_, ?_, ?_, ?_⟩
  · intro hdt; rw [hcell, if_pos hdt]
  · intro hdt
    have h1 : pyLower (header.getD i "") ≠ "datetime" := by rw [hdt]; decide
    rw [hcell, if_neg h1, if_pos hdt]
  · intro hdt
    have h1 : pyLower (header.getD i "") ≠ "datetime" := by rw [hdt]; decide
    have h2 : pyLower (header.getD i "") ≠ "date" := by rw [hdt]; decide
    rw [hcell, if_neg h1, if_neg h2, if_pos hdt]
  · intro h1 h2 h3
    constructor
    · intro hnone; rw [hcell, if_neg h1, if_neg h2, if_neg h3, hnone]
    · intro v hv; rw [hcell, if_neg h1, if_neg h2, if_neg h3, hv]

/-- C10 witness: a record key matching a header column only up to case is
not used (the cell is empty), while an exact match is stringified. -/
theorem buildRow_cells_witness :
    (3 < (["Datetime", "date", "raw_input", "Mood", "mood"] : List String).length ∧
      (buildRow ["Datetime", "date", "raw_input", "Mood", "mood"] "2024-05-01 08:00:00"
        "2024-05-01" "walked" [("mood", .jint 7)]).getD 3 "" = "") ∧
    (buildRow ["Datetime", "date", "raw_input", "Mood", "mood"] "2024-05-01 08:00:00"
        "2024-05-01" "walked" [("mood", .jint 7)]).getD 4 "" = "7" ∧
    (buildRow ["Datetime", "date", "raw_input", "Mood", "mood"] "2024-05-01 08:00:00"
        "2024-05-01" "walked" [("mood", .jint 7)]).getD 0 "" = "2024-05-01 08:00:00" := by
  refine ⟨⟨by decide, ?_⟩, ?_, ?_⟩
  · exact ((buildRow_cells _ _ _ _ _ 3 (by decide)).2.2.2.2 (by decide) (by decide)
      (by decide)).1 rfl
  · have h := ((buildRow_cells ["Datetime", "date", "raw_input", "Mood", "mood"]
      "2024-05-01 08:00:00" "2024-05-01" "walked" [("mood", .jint 7)] 4
      (by decide)).2.2.2.2 (by decide) (by decide) (by decide)).2 (.jint 7) rfl
    rw [h]
    simp only [pyStr, pyRepr]
    decide
  · exact (buildRow_cells _ _ _ _ _ 0 (by decide)).2.1 (by decide)

/-- C3 (amended): a cancel text from any non-idle state sets the state to
Idle; in every state except the config-update one it also clears the
draft, while the config-update handler resets only the state and leaves
the draft as it was. -/
theorem cancel_resets_state (ext : Ext) (g : Globals) (s : Session)
    (text : String) (st : ConvState) (hst : s.state = some st)
    (hc : pyLower text = "cancel") :
    (handleText ext g s text).sess.state = none ∧
    (st ≠ .updatingConfig → (handleText ext g s text).sess.draft = Draft.empty) ∧
    (st = .updatingConfig → (handleText ext g s text).sess.draft = s.draft) := by
  cases st <;>
    simp [handleText, hst, handle_date_selection, handle_custom_date, handle_input,
      confirm, edit, manual_input, handle_updated_config, handle_dream_input,
      confirm_dream, edit_dream, handle_thoughts_input, confirm_thoughts,
      edit_thoughts, cancel_process, hc]

/-- C3 witness: the cancel theorem at a concrete session in CONFIRMING
with a case-variant cancel text. -/
theorem cancel_resets_state_witness :
    ((⟨some .confirming, { date := some "2024-01-01" }⟩ : Session).state =
        some ConvState.confirming ∧
      pyLower "Cancel" = "cancel") ∧
    (handleText extNone gFresh ⟨some .confirming, { date := some "2024-01-01" }⟩
        "Cancel").sess.state = none ∧
    (handleText extNone gFresh ⟨some .confirming, { date := some "2024-01-01" }⟩
        "Cancel").sess.draft = Draft.empty :=
  ⟨⟨rfl, by decide⟩,
    (cancel_resets_state extNone gFresh _ "Cancel" .confirming rfl (by decide)).1,
    (cancel_resets_state extNone gFresh _ "Cancel" .confirming rfl (by decide)).2.1
      (by decide)⟩

/-- C3 counterexample: cancelling from the config-update state resets the
state but keeps the draft, so cancel does not clear the draft in every
non-idle state. -/
theorem cancel_in_config_update_keeps_draft :
    (handleText extNone gSheetOnly
        ⟨some .updatingConfig, { date := some "2024-01-01" }⟩ "cancel").sess =
      ⟨none, { date := some "2024-01-01" }⟩ ∧
    ¬ (handleText extNone gSheetOnly
        ⟨some .updatingConfig, { date := some "2024-01-01" }⟩ "cancel").sess.draft =
      Draft.empty := by
  constructor
  · rfl
  · decide

/-- C7: replying yes in CONFIRMING always resets the session to Idle with
a cleared draft, no exception escapes, and a sheet failure is only
reported through the warning reply. -/
theorem confirm_yes_resets (ext : Ext) (g : Globals) (s : Session)
    (text : String) (hst : s.state = some .confirming)
    (hy : pyLower text = "yes") :
    (handleText ext g s text).sess = ⟨none, Draft.empty⟩ ∧
    (handleText ext g s text).err = none ∧
    (g.hasSheet = true → ext.sheetFail = true →
      (handleText ext g s text).outs = [.appendFailedWarning]) := by
  have hnc : pyLower text ≠ "cancel" := by rw [hy]; decide
  cases hS : g.hasSheet <;> cases hF : ext.sheetFail <;>
    simp [handleText, hst, confirm, hy, hnc, hS, hF]

/-- C7 witness: the reset theorem at a concrete session whose sheet
append fails. -/
theorem confirm_yes_resets_witness :
    ((⟨some .confirming, { jsonOutput := some "x" }⟩ : Session).state =
        some ConvState.confirming ∧ pyLower "Yes" = "yes") ∧
    (handleText { extNone with sheetFail := true } gSheetOnly
        ⟨some .confirming, { jsonOutput := some "x" }⟩ "Yes").sess =
      ⟨none, Draft.empty⟩ ∧
    (handleText { extNone with sheetFail := true } gSheetOnly
        ⟨some .confirming, { jsonOutput := some "x" }⟩ "Yes").outs =
      [.appendFailedWarning] :=
  ⟨⟨rfl, by decide⟩,
    (confirm_yes_resets { extNone with sheetFail := true } gSheetOnly _ "Yes" rfl
      (by decide)).1,
    (confirm_yes_resets { extNone with sheetFail := true } gSheetOnly _ "Yes" rfl
      (by decide)).2.2 rfl rfl⟩

/-- C8 (amended): with setup incomplete the four flow commands gated by
ensure_setup are rejected with the setup prompt and change nothing, and
update_config is rejected (with the sheet-link prompt) only when no sheet
is linked. -/
theorem commands_gated (g : Globals) (s : Session)
    (hsetup : g.setupComplete = false) :
    habits_command g s = { sess := s, glob := g, outs := [.setupPrompt] } ∧
    manual_input_prompt g s = { sess := s, glob := g, outs := [.setupPrompt] } ∧
    dream_command g s = { sess := s, glob := g, outs := [.setupPrompt] } ∧
    thoughts_command g s = { sess := s, glob := g, outs := [.setupPrompt] } ∧
    (g.hasSheet = false →
      update_config_command g s = { sess := s, glob := g, outs := [.linkSheetPrompt] }) := by
  refine ⟨?_, ?_, ?_, ?_, fun hsheet => ?_⟩ <;>
    simp [habits_command, manual_input_prompt, dream_command, thoughts_command,
      update_config_command, hsetup]
  simp [*]

/-- C8 witness: the gate theorem for a user with neither sheet nor
configuration. -/
theorem commands_gated_witness :
    (gFresh.setupComplete = false) ∧
    habits_command gFresh ⟨none, Draft.empty⟩ =
      { sess := ⟨none, Draft.empty⟩, glob := gFresh, outs := [.setupPrompt] } ∧
    update_config_command gFresh ⟨none, Draft.empty⟩ =
      { sess := ⟨none, Draft.empty⟩, glob := gFresh, outs := [.linkSheetPrompt] } :=
  ⟨rfl, (commands_gated gFresh ⟨none, Draft.empty⟩ rfl).1,
    (commands_gated gFresh ⟨none, Draft.empty⟩ rfl).2.2.2.2 rfl⟩

/-- C8 counterexample: a user who linked a sheet but never saved a valid
configuration is not rejected by update_config: the command changes the
state to UPDATING_CONFIG and sends the example configuration, not a setup
prompt. -/
theorem update_config_bypasses_setup :
    gSheetOnly.hasSheet = true ∧ gSheetOnly.setupComplete = false ∧
    (update_config_command gSheetOnly ⟨none, Draft.empty⟩).sess.state =
      some .updatingConfig ∧
    (update_config_command gSheetOnly ⟨none, Draft.empty⟩).outs =
      [.showExampleConfig] :=
  ⟨rfl, rfl, rfl, rfl⟩

/-- C9: in MANUAL_INPUT (for a non-cancel text, cancel having priority by
the uniform cancel rule), text that json.loads rejects re-prompts with
the invalid-JSON reply and changes nothing, and text that parses is
dumped, written to the draft (the stored field), and the session returns
to Idle. -/
theorem manual_input_spec (ext : Ext) (g : Globals) (s : Session)
    (text : String) (hst : s.state = some .manualInput)
    (hnc : pyLower text ≠ "cancel") :
    (ext.loads text = none →
      handleText ext g s text = { sess := s, glob := g, outs := [.invalidJsonManual] }) ∧
    (∀ j, ext.loads text = some j →
      handleText ext g s text =
        { sess := ⟨none, Draft.empty⟩, glob := g, outs := [],
          stored := some (ext.dumps j) }) := by
  constructor
  · intro hnone
    simp [handleText, hst, manual_input, hnc, hnone]
  · intro j hj
    simp [handleText, hst, manual_input, hnc, hj]

/-- C9 witness: both branches of the manual-input theorem at concrete
inputs: a non-JSON text is re-prompted in place, a JSON text is captured
and the session reset. -/
theorem manual_input_spec_witness :
    ((⟨some .manualInput, Draft.empty⟩ : Session).state = some ConvState.manualInput ∧
      pyLower "oops" ≠ "cancel" ∧ extNone.loads "oops" = none ∧
      extCfg.loads "cfg" = some cfgVal) ∧
    handleText extNone gFresh ⟨some .manualInput, Draft.empty⟩ "oops" =
      { sess := ⟨some .manualInput, Draft.empty⟩, glob := gFresh,
        outs := [.invalidJsonManual] } ∧
    handleText extCfg gFresh ⟨some .manualInput, Draft.empty⟩ "cfg" =
      { sess := ⟨none, Draft.empty⟩, glob := gFresh, outs := [],
        stored := some (extCfg.dumps cfgVal) } :=
  ⟨⟨rfl, by decide, rfl, rfl⟩,
    (manual_input_spec extNone gFresh _ "oops" rfl (by decide)).1 rfl,
    (manual_input_spec extCfg gFresh _ "cfg" rfl (by decide)).2 cfgVal rfl⟩

/-- C1: the failing input evaluated through the model. The concrete
configuration text parses, passes the structural schema check, and its
habits pass the semantic validation with True, yet processing the message
raises TypeError at the tuple unpacking of bot.py:845 (validate_habits
returns a bare bool), so the user's configuration is not replaced, nothing
is reconciled or persisted, and the state stays UPDATING_CONFIG instead of
returning to Idle. -/
theorem config_update_success_path_unreachable :
    config_schema_check cfgVal = true ∧
    validate_habits ((cfgVal.objGet "habits").getD (.jobj [])) = .ok true ∧
    handleText extCfg gSheetOnly ⟨some .updatingConfig, Draft.empty⟩ "cfg" =
      { sess := ⟨some .updatingConfig, Draft.empty⟩, glob := gSheetOnly,
        outs := [], err := some .typeError } :=
  ⟨rfl, rfl, rfl⟩

theorem dtKeyOf_of_parse (iDt : Nat) (r : List String) (k : Nat)
    (h : parseDT (r.getD iDt "") = some k) : dtKeyOf iDt r = k := by
  unfold dtKeyOf
  rw [h]
  rfl

theorem setDay_map_day (A : List AggEntry) (d : String) (row : List String)
    (k : Nat) : (setDay A d row k).map AggEntry.day = A.map AggEntry.day := by
  rw [setDay, List.map_map]
  apply List.map_congr_left
  intro e _
  by_cases hd : e.day = d <;> simp [hd]

theorem aggStep_of_invalid (iDt iDate : Nat) (A : List AggEntry)
    (r : List String) (h : ¬ ValidR iDt iDate r) :
    aggStep iDt iDate A r = A := by
  unfold aggStep
  by_cases hlen : r.length ≤ max iDt iDate
  · rw [if_pos hlen]
  · rw [if_neg hlen]
    cases hp : parseDT (r.getD iDt "") with
    | none => rfl
    | some k => exact absurd ⟨by omega, by rw [hp]; rfl⟩ h

theorem aggStep_of_valid (iDt iDate : Nat) (A : List AggEntry)
    (r : List String) (k : Nat) (hlen : max iDt iDate < r.length)
    (hp : parseDT (r.getD iDt "") = some k) :
    aggStep iDt iDate A r =
      (match lookupDay A (dayOf iDate r) with
       | none => A ++ [⟨dayOf iDate r, r, k⟩]
       | some e => if e.key < k then setDay A (dayOf iDate r) r k else A) := by
  unfold aggStep
  rw [if_neg (by omega), hp]
  rfl

/-- Invariant of the aggregated dict after the loop of aggregate_diary has
processed the prefix P of the raw rows: day keys are distinct, every valid
processed row's day has an entry, and each entry keeps the first row of
its day attaining the maximal datetime seen so far (earlier rows of the
same day are strictly below it, later ones at most equal). -/
structure AggInv (iDt iDate : Nat) (A : List AggEntry)
    (P : List (List String)) : Prop where
  nodupKeys : (A.map AggEntry.day).Nodup
  keysComplete : ∀ r ∈ P, ValidR iDt iDate r → ∃ e ∈ A, e.day = dayOf iDate r
  entries : ∀ e ∈ A,
    e.day = dayOf iDate e.row ∧
    parseDT (e.row.getD iDt "") = some e.key ∧
    ∃ P₁ P₂, P = P₁ ++ e.row :: P₂ ∧
      (∀ r ∈ P₁, ValidR iDt iDate r → dayOf iDate r = e.day →
        dtKeyOf iDt r < e.key) ∧
      (∀ r ∈ P₂, ValidR iDt iDate r → dayOf iDate r = e.day →
        dtKeyOf iDt r ≤ e.key)

theorem aggInv_nil (iDt iDate : Nat) : AggInv iDt iDate [] [] :=
  ⟨List.nodup_nil, by simp, by simp⟩

theorem aggInv_step (iDt iDate : Nat) (A : List AggEntry)
    (P : List (List String)) (r : List String) (h : AggInv iDt iDate A P) :
    AggInv iDt iDate (aggStep iDt iDate A r) (P ++ [r]) := by
  by_cases hv : ValidR iDt iDate r
  case neg =>
    rw [aggStep_of_invalid iDt iDate A r hv]
    refine ⟨h.nodupKeys, ?_, ?_⟩
    · intro r' hr' hval'
      rcases List.mem_append.1 hr' with hr' | hr'
      · exact h.keysComplete r' hr' hval'
      · have hq := List.mem_singleton.1 hr'
        exact absurd (hq ▸ hval') hv
    · intro e he
      obtain ⟨hday, hparse, P₁, P₂, hsplit, hP₁, hP₂⟩ := h.entries e he
      refine ⟨hday, hparse, P₁, P₂ ++ [r], by rw [hsplit]; simp, hP₁, ?_⟩
      intro r' hr' hval' hdr
      rcases List.mem_append.1 hr' with hr' | hr'
      · exact hP₂ r' hr' hval' hdr
      · have hq := List.mem_singleton.1 hr'
        exact absurd (hq ▸ hval') hv
  case pos =>
    obtain ⟨hlen, hps⟩ := hv
    obtain ⟨k, hp⟩ := Option.isSome_iff_exists.1 hps
    rw [aggStep_of_valid iDt iDate A r k hlen hp]
    cases hfind : lookupDay A (dayOf iDate r) with
    | none =>
      show AggInv iDt iDate (A ++ [⟨dayOf iDate r, r, k⟩]) (P ++ [r])
      have hnone : ∀ e ∈ A, e.day ≠ dayOf iDate r := by
        intro e he
        have := List.find?_eq_none.1 hfind e he
        simpa using this
      have hPnone : ∀ r' ∈ P, ValidR iDt iDate r' →
          dayOf iDate r' ≠ dayOf iDate r := by
        intro r' hr' hval' hcon
        obtain ⟨e, he, hed⟩ := h.keysComplete r' hr' hval'
        exact hnone e he (by rw [hed, hcon])
      refine ⟨?_, ?_, ?_⟩
      · rw [List.map_append]
        refine List.Nodup.append h.nodupKeys (List.nodup_singleton _) ?_
        intro x hx hx'
        obtain ⟨e, he, rfl⟩ := List.mem_map.1 hx
        have hq := List.mem_singleton.1 hx'
        exact hnone e he hq
      · intro r' hr' hval'
        rcases List.mem_append.1 hr' with hr' | hr'
        · obtain ⟨e, he, hed⟩ := h.keysComplete r' hr' hval'
          exact ⟨e, List.mem_append_left _ he, hed⟩
        · have hq := List.mem_singleton.1 hr'
          refine ⟨⟨dayOf iDate r, r, k⟩,
            List.mem_append_right _ (List.mem_singleton.2 rfl), ?_⟩
          rw [hq]
      · intro e he
        rcases List.mem_append.1 he with he | he
        · obtain ⟨hday, hparse, P₁, P₂, hsplit, hP₁, hP₂⟩ := h.entries e he
          refine ⟨hday, hparse, P₁, P₂ ++ [r], by rw [hsplit]; simp, hP₁, ?_⟩
          intro r' hr' hval' hdr
          rcases List.mem_append.1 hr' with hr' | hr'
          · exact hP₂ r' hr' hval' hdr
          · have hq := List.mem_singleton.1 hr'
            rw [hq] at hdr
            exact absurd hdr.symm (hnone e he)
        · have hqe := List.mem_singleton.1 he
          subst hqe
          refine ⟨rfl, hp, P, [], by simp, ?_, by simp⟩
          intro r' hr' hval' hdr
          exact absurd hdr (hPnone r' hr' hval')
    | some e₀ =>
      show AggInv iDt iDate
        (if e₀.key < k then setDay A (dayOf iDate r) r k else A) (P ++ [r])
      have he₀A : e₀ ∈ A := List.mem_of_find?_eq_some hfind
      have he₀d : e₀.day = dayOf iDate r := by
        simpa using List.find?_some hfind
      have huniq : ∀ e ∈ A, e.day = dayOf iDate r → e = e₀ := by
        intro e he hed
        exact List.inj_on_of_nodup_map h.nodupKeys he he₀A (by rw [hed, he₀d])
      obtain ⟨hday₀, hparse₀, Q₁, Q₂, hsplit₀, hQ₁, hQ₂⟩ := h.entries e₀ he₀A
      have hball : ∀ r' ∈ P, ValidR iDt iDate r' →
          dayOf iDate r' = dayOf iDate r → dtKeyOf iDt r' ≤ e₀.key := by
        intro r' hr' hval' hdr
        rw [hsplit₀] at hr'
        rcases List.mem_append.1 hr' with h1 | h2
        · exact le_of_lt (hQ₁ r' h1 hval' (by rw [hdr, he₀d]))
        · rcases List.mem_cons.1 h2 with hq | h2
          · rw [hq]
            exact le_of_eq (dtKeyOf_of_parse iDt e₀.row e₀.key hparse₀)
          · exact hQ₂ r' h2 hval' (by rw [hdr, he₀d])
      by_cases hlt : e₀.key < k
      · rw [if_pos hlt]
        refine ⟨?_, ?_, ?_⟩
        · rw [setDay_map_day]
          exact h.nodupKeys
        · intro r' hr' hval'
          rcases List.mem_append.1 hr' with hr' | hr'
          · obtain ⟨e, he, hed⟩ := h.keysComplete r' hr' hval'
            by_cases hed' : e.day = dayOf iDate r
            · refine ⟨⟨dayOf iDate r, r, k⟩, ?_, by
                have hgoal : dayOf iDate r = dayOf iDate r' := by rw [← hed', hed]
                exact hgoal⟩
              have hmm := List.mem_map_of_mem
                (fun e => if e.day = dayOf iDate r then
                  (⟨dayOf iDate r, r, k⟩ : AggEntry) else e) he
              simpa [setDay, hed'] using hmm
            · refine ⟨e, ?_, hed⟩
              have hmm := List.mem_map_of_mem
                (fun e => if e.day = dayOf iDate r then
                  (⟨dayOf iDate r, r, k⟩ : AggEntry) else e) he
              simpa [setDay, hed'] using hmm
          · have hq := List.mem_singleton.1 hr'
            refine ⟨⟨dayOf iDate r, r, k⟩, ?_, by rw [hq]⟩
            have hmm := List.mem_map_of_mem
              (fun e => if e.day = dayOf iDate r then
                (⟨dayOf iDate r, r, k⟩ : AggEntry) else e) he₀A
            simpa [setDay, he₀d] using hmm
        · intro e' he'
          obtain ⟨e, he, hee⟩ := List.mem_map.1 he'
          by_cases hed : e.day = dayOf iDate r
          · rw [if_pos hed] at hee
            subst hee
            refine ⟨rfl, hp, P, [], by simp, ?_, by simp⟩
            intro r' hr' hval' hdr
            have hdr' : dayOf iDate r' = dayOf iDate r := hdr
            exact lt_of_le_of_lt (hball r' hr' hval' hdr') hlt
          · rw [if_neg hed] at hee
            subst hee
            obtain ⟨hday, hparse, P₁, P₂, hsplit, hP₁, hP₂⟩ := h.entries e he
            refine ⟨hday, hparse, P₁, P₂ ++ [r], by rw [hsplit]; simp, hP₁, ?_⟩
            intro r' hr' hval' hdr
            rcases List.mem_append.1 hr' with hr' | hr'
            · exact hP₂ r' hr' hval' hdr
            · have hq := List.mem_singleton.1 hr'
              rw [hq] at hdr
              exact absurd hdr.symm hed
      · rw [if_neg hlt]
        refine ⟨h.nodupKeys, ?_, ?_⟩
        · intro r' hr' hval'
          rcases List.mem_append.1 hr' with hr' | hr'
          · exact h.keysComplete r' hr' hval'
          · have hq := List.mem_singleton.1 hr'
            exact ⟨e₀, he₀A, by rw [hq, he₀d]⟩
        · intro e he
          obtain ⟨hday, hparse, P₁, P₂, hsplit, hP₁, hP₂⟩ := h.entries e he
          refine ⟨hday, hparse, P₁, P₂ ++ [r], by rw [hsplit]; simp, hP₁, ?_⟩
          intro r' hr' hval' hdr
          rcases List.mem_append.1 hr' with hr' | hr'
          · exact hP₂ r' hr' hval' hdr
          · have hq := List.mem_singleton.1 hr'
            have hee : e = e₀ := huniq e he (by rw [← hq]; exact hdr.symm)
            rw [hq, dtKeyOf_of_parse iDt r k hp, hee]
            omega

theorem aggInv_fold (iDt iDate : Nat) :
    ∀ (records : List (List String)) (A : List AggEntry)
      (P : List (List String)), AggInv iDt iDate A P →
      AggInv iDt iDate (records.foldl (aggStep iDt iDate) A) (P ++ records) := by
  intro records
  induction records with
  | nil => intro A P h; simpa using h
  | cons r rs ih =>
    intro A P h
    have := ih (aggStep iDt iDate A r) (P ++ [r]) (aggInv_step iDt iDate A P r h)
    simpa [List.append_assoc] using this

/-- Joint properties of the rebuilt aggregate rows, derived from the fold
invariant and the sort: distinct day cells, days in bijection with the
days of the raw set, every output row the first-appended maximal-datetime
row of its day, and rows sorted ascending by datetime. -/
theorem aggregate_core_props (header : List String)
    (records : List (List String)) (iDt iDate : Nat)
    (hdt : header.findIdx? (· = "datetime") = some iDt)
    (hdate : header.findIdx? (· = "date") = some iDate)
    (hne : records ≠ [])
    (hval : ∀ r ∈ records, ValidR iDt iDate r) :
    ∃ out, aggregate_core header records = some out ∧
      (out.map (dayOf iDate)).Nodup ∧
      (∀ d, (∃ r ∈ records, dayOf iDate r = d) ↔ ∃ o ∈ out, dayOf iDate o = d) ∧
      (∀ o ∈ out, ∃ P₁ P₂, records = P₁ ++ o :: P₂ ∧
        (∀ r ∈ P₁, dayOf iDate r = dayOf iDate o →
          dtKeyOf iDt r < dtKeyOf iDt o) ∧
        (∀ r ∈ P₂, dayOf iDate r = dayOf iDate o →
          dtKeyOf iDt r ≤ dtKeyOf iDt o)) ∧
      out.Pairwise (fun a b => dtKeyOf iDt a ≤ dtKeyOf iDt b) := by
  have hinv : AggInv iDt iDate (records.foldl (aggStep iDt iDate) []) records := by
    have h0 := aggInv_fold iDt iDate records [] [] (aggInv_nil iDt iDate)
    simpa using h0
  have hperm : List.Perm
      ((records.foldl (aggStep iDt iDate) []).insertionSort entLE)
      (records.foldl (aggStep iDt iDate) []) :=
    List.perm_insertionSort entLE _
  have hsorted : List.Pairwise entLE
      ((records.foldl (aggStep iDt iDate) []).insertionSort entLE) :=
    List.sorted_insertionSort entLE _
  refine ⟨((records.foldl (aggStep iDt iDate) []).insertionSort entLE).map
    AggEntry.row, ?_, ?_, ?_, ?_, ?_⟩
  · unfold aggregate_core
    rw [if_neg (by simpa [List.isEmpty_iff] using hne)]
    simp only [hdt, hdate]
  · have hmapdays :
        (((records.foldl (aggStep iDt iDate) []).insertionSort entLE).map
          AggEntry.row).map (dayOf iDate) =
        ((records.foldl (aggStep iDt iDate) []).insertionSort entLE).map
          AggEntry.day := by
      rw [List.map_map]
      refine List.map_congr_left ?_
      intro e he
      exact ((hinv.entries e (hperm.subset he)).1).symm
    rw [hmapdays]
    exact (hperm.map AggEntry.day).nodup_iff.2 hinv.nodupKeys
  · intro d
    constructor
    · rintro ⟨r, hr, hd⟩
      obtain ⟨e, heA, hed⟩ := hinv.keysComplete r hr (hval r hr)
      refine ⟨e.row, List.mem_map_of_mem _ (hperm.mem_iff.2 heA), ?_⟩
      rw [← (hinv.entries e heA).1, hed, hd]
    · rintro ⟨o, ho, hd⟩
      obtain ⟨e, heS, rfl⟩ := List.mem_map.1 ho
      obtain ⟨hday, hparse, P₁, P₂, hsplit, -, -⟩ :=
        hinv.entries e (hperm.subset heS)
      exact ⟨e.row, by rw [hsplit]; exact List.mem_append_right _ (.head _), hd⟩
  · intro o ho
    obtain ⟨e, heS, rfl⟩ := List.mem_map.1 ho
    obtain ⟨hday, hparse, P₁, P₂, hsplit, hP₁, hP₂⟩ :=
      hinv.entries e (hperm.subset heS)
    have hkey : dtKeyOf iDt e.row = e.key :=
      dtKeyOf_of_parse iDt e.row e.key hparse
    refine ⟨P₁, P₂, hsplit, ?_, ?_⟩
    · intro r' hr' hdr
      have hv' : ValidR iDt iDate r' :=
        hval r' (by rw [hsplit]; exact List.mem_append_left _ hr')
      rw [hkey]
      exact hP₁ r' hr' hv' (by rw [hdr, hday])
    · intro r' hr' hdr
      have hv' : ValidR iDt iDate r' :=
        hval r' (by rw [hsplit]; exact List.mem_append_right _ (.tail _ hr'))
      rw [hkey]
      exact hP₂ r' hr' hv' (by rw [hdr, hday])
  · refine List.pairwise_map.2 ?_
    refine hsorted.imp_of_mem ?_
    intro a b ha hb hab
    have hka : dtKeyOf iDt a.row = a.key :=
      dtKeyOf_of_parse iDt a.row a.key (hinv.entries a (hperm.subset ha)).2.1
    have hkb : dtKeyOf iDt b.row = b.key :=
      dtKeyOf_of_parse iDt b.row b.key (hinv.entries b (hperm.subset hb)).2.1
    rw [hka, hkb]
    exact hab

/-- C4: on raw rows that are well-formed RawRecords (their datetime cell
parses in the fixed layout and the row reaches both indexed columns), the
rebuilt aggregate holds exactly one row per distinct date of the raw set,
that row is a raw row of that date with maximal datetime, and the rows
come out sorted ascending by datetime. -/
theorem aggregate_core_spec (header : List String)
    (records : List (List String)) (iDt iDate : Nat)
    (hdt : header.findIdx? (· = "datetime") = some iDt)
    (hdate : header.findIdx? (· = "date") = some iDate)
    (hne : records ≠ [])
    (hval : ∀ r ∈ records, ValidR iDt iDate r) :
    ∃ out, aggregate_core header records = some out ∧
      (out.map (dayOf iDate)).Nodup ∧
      (∀ d, (∃ r ∈ records, dayOf iDate r = d) ↔ ∃ o ∈ out, dayOf iDate o = d) ∧
      (∀ o ∈ out, o ∈ records ∧
        ∀ r ∈ records, dayOf iDate r = dayOf iDate o →
          dtKeyOf iDt r ≤ dtKeyOf iDt o) ∧
      out.Pairwise (fun a b => dtKeyOf iDt a ≤ dtKeyOf iDt b) := by
  obtain ⟨out, hout, hnodup, hiff, hsplit, hpw⟩ :=
    aggregate_core_props header records iDt iDate hdt hdate hne hval
  refine ⟨out, hout, hnodup, hiff, ?_, hpw⟩
  intro o ho
  obtain ⟨P₁, P₂, hsp, hP₁, hP₂⟩ := hsplit o ho
  constructor
  · rw [hsp]
    exact List.mem_append_right _ (.head _)
  · intro r hr hdr
    rw [hsp] at hr
    rcases List.mem_append.1 hr with h1 | h2
    · exact le_of_lt (hP₁ r h1 hdr)
    · rcases List.mem_cons.1 h2 with hq | h2
      · rw [hq]
      · exact hP₂ r h2 hdr

/-- C4 witness: the aggregate theorem at a concrete two-day raw set. -/
theorem aggregate_core_spec_witness :
    ((["datetime", "date", "raw_input"] : List String).findIdx?
        (· = "datetime") = some 0 ∧
      (["datetime", "date", "raw_input"] : List String).findIdx?
        (· = "date") = some 1 ∧
      ([["2024-01-02 10:00:00", "2024-01-02", "b"],
        ["2024-01-01 09:00:00", "2024-01-01", "a"]] : List (List String)) ≠ [] ∧
      ∀ r ∈ ([["2024-01-02 10:00:00", "2024-01-02", "b"],
        ["2024-01-01 09:00:00", "2024-01-01", "a"]] : List (List String)),
        ValidR 0 1 r) ∧
    (∃ out, aggregate_core ["datetime", "date", "raw_input"]
        [["2024-01-02 10:00:00", "2024-01-02", "b"],
         ["2024-01-01 09:00:00", "2024-01-01", "a"]] = some out ∧
      (out.map (dayOf 1)).Nodup ∧
      (∀ d, (∃ r ∈ ([["2024-01-02 10:00:00", "2024-01-02", "b"],
          ["2024-01-01 09:00:00", "2024-01-01", "a"]] : List (List String)),
          dayOf 1 r = d) ↔ ∃ o ∈ out, dayOf 1 o = d) ∧
      (∀ o ∈ out, o ∈ ([["2024-01-02 10:00:00", "2024-01-02", "b"],
          ["2024-01-01 09:00:00", "2024-01-01", "a"]] : List (List String)) ∧
        ∀ r ∈ ([["2024-01-02 10:00:00", "2024-01-02", "b"],
          ["2024-01-01 09:00:00", "2024-01-01", "a"]] : List (List String)),
          dayOf 1 r = dayOf 1 o → dtKeyOf 0 r ≤ dtKeyOf 0 o) ∧
      out.Pairwise (fun a b => dtKeyOf 0 a ≤ dtKeyOf 0 b)) :=
  ⟨⟨by decide, by decide, by decide, by decide⟩,
    aggregate_core_spec _ _ 0 1 (by decide) (by decide) (by decide) (by decide)⟩

/-- C2 (amended): the row kept for a day is the earliest-appended row
among those attaining the maximal datetime of that day: rows of the same
day before it in log order have strictly smaller datetimes and rows after
it have datetimes at most equal. In particular, of two same-day rows with
equal datetime values, the one appended earlier wins, not the later. -/
theorem aggregate_core_first_of_max (header : List String)
    (records : List (List String)) (iDt iDate : Nat)
    (hdt : header.findIdx? (· = "datetime") = some iDt)
    (hdate : header.findIdx? (· = "date") = some iDate)
    (hne : records ≠ [])
    (hval : ∀ r ∈ records, ValidR iDt iDate r) :
    ∃ out, aggregate_core header records = some out ∧
      ∀ o ∈ out, ∃ P₁ P₂, records = P₁ ++ o :: P₂ ∧
        (∀ r ∈ P₁, dayOf iDate r = dayOf iDate o →
          dtKeyOf iDt r < dtKeyOf iDt o) ∧
        (∀ r ∈ P₂, dayOf iDate r = dayOf iDate o →
          dtKeyOf iDt r ≤ dtKeyOf iDt o) := by
  obtain ⟨out, hout, -, -, hsplit, -⟩ :=
    aggregate_core_props header records iDt iDate hdt hdate hne hval
  exact ⟨out, hout, hsplit⟩

/-- C2 witness: the first-of-max theorem at a concrete raw set. -/
theorem aggregate_core_first_of_max_witness :
    ((["datetime", "date", "raw_input"] : List String).findIdx?
        (· = "datetime") = some 0 ∧
      ∀ r ∈ ([["2024-01-01 08:00:00", "2024-01-01", "first entry"],
        ["2024-01-01 08:00:00", "2024-01-01", "second entry"]] :
          List (List String)), ValidR 0 1 r) ∧
    (∃ out, aggregate_core ["datetime", "date", "raw_input"]
        [["2024-01-01 08:00:00", "2024-01-01", "first entry"],
         ["2024-01-01 08:00:00", "2024-01-01", "second entry"]] = some out ∧
      ∀ o ∈ out, ∃ P₁ P₂,
        ([["2024-01-01 08:00:00", "2024-01-01", "first entry"],
          ["2024-01-01 08:00:00", "2024-01-01", "second entry"]] :
            List (List String)) = P₁ ++ o :: P₂ ∧
        (∀ r ∈ P₁, dayOf 1 r = dayOf 1 o → dtKeyOf 0 r < dtKeyOf 0 o) ∧
        (∀ r ∈ P₂, dayOf 1 r = dayOf 1 o → dtKeyOf 0 r ≤ dtKeyOf 0 o)) :=
  ⟨⟨by decide, by decide⟩,
    aggregate_core_first_of_max _ _ 0 1 (by decide) (by decide) (by decide)
      (by decide)⟩

/-- C2 counterexample: two rows of the same date with equal datetime
values; the rebuilt aggregate keeps the first-appended row, and the two
rows differ, so the later-appended row is not the one kept. -/
theorem aggregate_core_tie_keeps_earlier :
    aggregate_core ["datetime", "date", "raw_input"]
      [["2024-01-01 08:00:00", "2024-01-01", "first entry"],
       ["2024-01-01 08:00:00", "2024-01-01", "second entry"]] =
      some [["2024-01-01 08:00:00", "2024-01-01", "first entry"]] ∧
    (["2024-01-01 08:00:00", "2024-01-01", "first entry"] : List String) ≠
      ["2024-01-01 08:00:00", "2024-01-01", "second entry"] := by
  constructor
  · rfl
  · decide

end TgHabits
